import Mathlib

/-!
Verification development for the ai-navigator-scrapers repository.

The repository contains the operator dashboard (frontend/src/App.js) and the
product requirements document. The ingestion pipeline described by the design
document (normalizer, taxonomy resolver, deduplication engine, ingestion
coordinator, job registry) is not present as source; those parts are modelled
from the design document and marked as such in their doc comments.

Section 1 embeds the ingestion pipeline model, section 2 the dashboard
component from App.js, and section 3 states and proves the claims.
-/

namespace Scrapers

/-! ### Part 1: ingestion pipeline, modelled from the spec -/

/-- Lower-case one ASCII character code (spec: scheme and host are
lower-cased during URL canonicalization). -/
def toLowerChar (c : Nat) : Nat :=
  if 65 ≤ c ∧ c ≤ 90 then c + 32 else c

/-- Lower-case a string of character codes. -/
def lowerStr (s : List Nat) : List Nat :=
  s.map toLowerChar

/-- Modelled from the spec: default port lookup used by URL canonicalization.
The codes spell http and https. -/
def defaultPort (scheme : List Nat) : Option Nat :=
  if scheme = [104, 116, 116, 112] then some 80
  else if scheme = [104, 116, 116, 112, 115] then some 443
  else none

/-- True when a query key begins with the four codes of utm underscore. -/
def isUtmKey : List Nat → Bool
  | 117 :: 116 :: 109 :: 95 :: _ => true
  | _ => false

/-- Remove every trailing slash (code 47) from a path. -/
def stripSlashes (p : List Nat) : List Nat :=
  ((p.reverse.dropWhile (fun c => c = 47))).reverse

/-- Modelled from the spec: a parsed absolute URL. The URL parser itself is
not in the repository sources; canonicalization operates on its output. -/
structure Url where
  scheme : List Nat
  host : List Nat
  port : Option Nat
  path : List Nat
  query : List (List Nat × List Nat)
deriving DecidableEq

/-- Modelled from the spec: URL canonicalization of the Record Normalizer.
Lower-cases scheme and host, removes default ports, strips the trailing
slash and the utm tracking query parameters. -/
def canonicalize (u : Url) : Url :=
  let sch := lowerStr u.scheme
  { scheme := sch
    host := lowerStr u.host
    port :=
      match u.port with
      | none => none
      | some p => if defaultPort sch = some p then none else some p
    path := stripSlashes u.path
    query := u.query.filter (fun kv => !(isUtmKey kv.1)) }

/-- Modelled from the spec: a raw extracted record, an unstructured mapping
that may be missing any field except the source; the URL field holds the
parsed URL when the raw string parsed. -/
structure RawRecord where
  name : Option (List Nat)
  website_url : Option Url
  description : Option (List Nat)
  categories : List (List Nat)
  source_site : List Nat
deriving DecidableEq

/-- Modelled from the spec: the stable intermediate form produced by the
Record Normalizer. -/
structure NormalizedRecord where
  name : List Nat
  website_url : Url
  description : List Nat
  categories : List (List Nat)
  source_site : List Nat
deriving DecidableEq

/-- Trim leading and trailing spaces (code 32) from a text field. -/
def trim (s : List Nat) : List Nat :=
  ((s.dropWhile (fun c => c = 32)).reverse.dropWhile (fun c => c = 32)).reverse

/-- Modelled from the spec: the Record Normalizer contract. Rejects
(returns none) when the name or the website URL is missing or empty;
otherwise canonicalizes the URL and trims the text fields. -/
def normalize (raw : RawRecord) : Option NormalizedRecord :=
  match raw.name, raw.website_url with
  | some n, some u =>
    let n1 := trim n
    if n1 = [] then none
    else
      some { name := n1
             website_url := canonicalize u
             description := trim (raw.description.getD [])
             categories := raw.categories
             source_site := raw.source_site }
  | _, _ => none

/-- Modelled from the spec: a canonical taxonomy term with its aliases. -/
structure TaxonomyTerm where
  id : String
  display_name : List Nat
  aliases : List (List Nat)
deriving DecidableEq

/-- Modelled from the spec: the Taxonomy Resolver, exact case-insensitive
match against the display name or any alias. -/
def resolveTerm (tax : List TaxonomyTerm) (raw : List Nat) : Option String :=
  (tax.find? (fun t =>
    decide (lowerStr t.display_name = lowerStr raw) ||
    t.aliases.any (fun a => decide (lowerStr a = lowerStr raw)))).map TaxonomyTerm.id

/-- Modelled from the spec: a raw term seen with no canonical match, queued
for curation with its occurrence count. -/
structure MissingTaxonomyItem where
  type : String
  raw_name : List Nat
  occurrence_count : Nat
deriving DecidableEq

/-- Modelled from the spec: create or increment the missing-taxonomy item
for a raw term. -/
def upsertMissing (log : List MissingTaxonomyItem) (ty : String) (raw : List Nat) :
    List MissingTaxonomyItem :=
  if log.any (fun m => decide (m.type = ty) && decide (m.raw_name = raw)) then
    log.map (fun m =>
      if m.type = ty ∧ m.raw_name = raw then
        { m with occurrence_count := m.occurrence_count + 1 }
      else m)
  else log ++ [{ type := ty, raw_name := raw, occurrence_count := 1 }]

/-- Modelled from the spec: resolve every raw category, collecting the
resolved identifiers and accumulating misses in the log. -/
def resolveAll (tax : List TaxonomyTerm) (log : List MissingTaxonomyItem) :
    List (List Nat) → List String × List MissingTaxonomyItem
  | [] => ([], log)
  | c :: cs =>
    match resolveTerm tax c with
    | some i =>
      let (ids, log1) := resolveAll tax log cs
      (i :: ids, log1)
    | none => resolveAll tax (upsertMissing log "Category" c) cs

/-- Modelled from the spec: a stored, deduplicated entity; the website URL
is its unique key. -/
structure Entity where
  website_url : Url
  name : List Nat
  description : List Nat
  category_ids : List String
  source_sites : List (List Nat)
deriving DecidableEq

/-- Modelled from the spec: the store lookup by canonical URL. -/
def find_by_url (store : List Entity) (u : Url) : Option Entity :=
  store.find? (fun e => decide (e.website_url = u))

/-- Modelled from the spec: merge a duplicate into the existing entity;
union the source sites and fill only currently-empty fields, never
overwriting a populated field. -/
def mergeEntity (e : Entity) (r : NormalizedRecord) (ids : List String) : Entity :=
  { e with
    description := if e.description = [] then r.description else e.description
    category_ids := if e.category_ids = [] then ids else e.category_ids
    source_sites :=
      if r.source_site ∈ e.source_sites then e.source_sites
      else e.source_sites ++ [r.source_site] }

/-- Modelled from the spec: build the entity inserted for a fresh record. -/
def newEntity (r : NormalizedRecord) (ids : List String) : Entity :=
  { website_url := r.website_url
    name := r.name
    description := r.description
    category_ids := ids
    source_sites := [r.source_site] }

/-- Modelled from the spec: per-job statistics. -/
structure JobStats where
  total_processed : Nat
  successful_submissions : Nat
  failed_submissions : Nat
  duplicates_skipped : Nat
deriving DecidableEq

/-- Job statistics at job creation. -/
def zeroStats : JobStats :=
  { total_processed := 0
    successful_submissions := 0
    failed_submissions := 0
    duplicates_skipped := 0 }

/-- Record a normalization rejection: one failed submission, one processed. -/
def bumpFailed (s : JobStats) : JobStats :=
  { s with
    failed_submissions := s.failed_submissions + 1
    total_processed := s.total_processed + 1 }

/-- Record a duplicate merge: one duplicate skipped, one processed. -/
def bumpDup (s : JobStats) : JobStats :=
  { s with
    duplicates_skipped := s.duplicates_skipped + 1
    total_processed := s.total_processed + 1 }

/-- Record a fresh insert: one successful submission, one processed. -/
def bumpSuccess (s : JobStats) : JobStats :=
  { s with
    successful_submissions := s.successful_submissions + 1
    total_processed := s.total_processed + 1 }

/-- Modelled from the spec: job lifecycle states. -/
inductive JobState where
  | Pending
  | Running
  | Completed
  | Failed
deriving DecidableEq

/-- Modelled from the spec: the state the Ingestion Coordinator threads
through a run: the store, the missing-taxonomy log, the seeded taxonomy and
the job statistics. -/
structure PipelineState where
  store : List Entity
  missing : List MissingTaxonomyItem
  taxonomy : List TaxonomyTerm
  stats : JobStats
deriving DecidableEq

/-- Modelled from the spec: the per-record step of the Ingestion
Coordinator. Normalize (rejection counts a failure), resolve terms without
blocking, deduplicate by URL (match merges and counts a skipped duplicate,
no match inserts and counts a success), and count every record processed. -/
def processRecord (st : PipelineState) (raw : RawRecord) : PipelineState :=
  match normalize raw with
  | none => { st with stats := bumpFailed st.stats }
  | some r =>
    let rr := resolveAll st.taxonomy st.missing r.categories
    match find_by_url st.store r.website_url with
    | some _ =>
      { st with
        store := st.store.map (fun x =>
          if x.website_url = r.website_url then mergeEntity x r rr.1 else x)
        missing := rr.2
        stats := bumpDup st.stats }
    | none =>
      { st with
        store := st.store ++ [newEntity r rr.1]
        missing := rr.2
        stats := bumpSuccess st.stats }

/-- Modelled from the spec: the Coordinator run loop with the item cap.
Before pulling each record it checks whether the cap is reached; it returns
the final state, the records actually pulled, and the terminal job state. -/
def runJob (maxItems : Nat) (st : PipelineState) :
    List RawRecord → PipelineState × List RawRecord × JobState
  | [] => (st, [], JobState.Completed)
  | r :: rs =>
    if maxItems ≤ st.stats.total_processed then (st, [], JobState.Completed)
    else
      let res := runJob maxItems (processRecord st r) rs
      (res.1, r :: res.2.1, res.2.2)

/-- The stats accounting invariant of the design document. -/
def statsInvariant (s : JobStats) : Prop :=
  s.total_processed =
    s.successful_submissions + s.failed_submissions + s.duplicates_skipped

instance (s : JobStats) : Decidable (statsInvariant s) := by
  unfold statsInvariant; infer_instance

/-- Modelled from the spec: a Job as held by the Job Registry. -/
structure Job where
  id : String
  spider_name : String
  max_items : Nat
  state : JobState
  stats : JobStats
deriving DecidableEq

/-- Modelled from the spec: the response value of the start-scraping
endpoint; failure is a value, not an HTTP-level error. -/
inductive ApiStartResult where
  | success (job_id : String)
  | failure (message : String)
deriving DecidableEq

/-- Modelled from the spec: the start-scraping endpoint guarded by the
single-active-job rule; while some Job is Running it returns the failure
value and registers nothing. -/
def apiStartScraping (jobs : List Job) (spider : String) (mi : Nat) (newId : String) :
    List Job × ApiStartResult :=
  if jobs.any (fun j => decide (j.state = JobState.Running)) then
    (jobs, ApiStartResult.failure "A scraping job is already running")
  else
    (jobs ++ [{ id := newId, spider_name := spider, max_items := mi
                state := JobState.Running, stats := zeroStats }],
     ApiStartResult.success newId)

/-! ### Part 2: the dashboard component, embedded from frontend/src/App.js -/

/-- One scraped item as rendered in the Results tab of App.js. -/
structure ScrapeItem where
  tool_name_on_directory : String
  external_website_url : String
  scraped_date : String
deriving DecidableEq

/-- Payload of GET api scraping-results for one spider, as read by App.js. -/
structure ScrapeResults where
  results_count : Nat
  results : List ScrapeItem
deriving DecidableEq

/-- One service entry of the GET api test-services payload, with the fields
the ServiceStatusCard of App.js reads. -/
structure ServiceInfo where
  status : String
  error : Option String
  categories_count : Option Nat
  tags_loaded : Option Nat
  features_loaded : Option Nat
deriving DecidableEq

/-- One missing-taxonomy entry as rendered by the Taxonomy tab of App.js. -/
structure MissingItemView where
  type : String
  name : String
  timestamp : String
deriving DecidableEq

/-- The GET api status payload as read by App.js: the running flag, the
current job when one exists, and the stats object when present. -/
structure PipelineStatus where
  is_running : Bool
  current_job : Option String
  stats : Option JobStats
deriving DecidableEq

/-- Modelled from the spec: the empty object App.js starts pipelineStatus
with before the first successful poll. -/
def emptyStatus : PipelineStatus :=
  { is_running := false, current_job := none, stats := none }

/-- The component state of the App component: one field per useState hook
of App.js. The scraping-results map is total over spider names, absent keys
mapping to none. -/
structure AppState where
  spiders : List String
  pipelineStatus : PipelineStatus
  serviceStatus : List (String × ServiceInfo)
  scrapingResults : String → Option ScrapeResults
  logs : List String
  missingTaxonomy : List MissingItemView
  loading : Bool
  selectedSpider : String
  maxItems : Nat
  activeTab : String

/-- Embedded from App.js fetchSpiders: on success store the spider list and
select the first spider when the list is non-empty; on request failure only
log, leaving the state unchanged. -/
def fetchSpiders (st : AppState) (resp : Option (List String)) : AppState :=
  match resp with
  | none => st
  | some sp =>
    match sp with
    | [] => { st with spiders := sp }
    | h :: _ => { st with spiders := sp, selectedSpider := h }

/-- Embedded from App.js fetchPipelineStatus: on success replace the status
snapshot; on request failure only log, leaving the state unchanged. -/
def fetchPipelineStatus (st : AppState) (resp : Option PipelineStatus) : AppState :=
  match resp with
  | none => st
  | some ps => { st with pipelineStatus := ps }

/-- Embedded from App.js fetchServiceStatus: on success replace the service
status; on request failure only log, leaving the state unchanged. -/
def fetchServiceStatus (st : AppState) (resp : Option (List (String × ServiceInfo))) :
    AppState :=
  match resp with
  | none => st
  | some s => { st with serviceStatus := s }

/-- Embedded from App.js fetchLogs: on success replace the log lines; on
request failure only log, leaving the state unchanged. -/
def fetchLogs (st : AppState) (resp : Option (List String)) : AppState :=
  match resp with
  | none => st
  | some l => { st with logs := l }

/-- Embedded from App.js fetchMissingTaxonomy: on success replace the
missing items; on request failure only log, leaving the state unchanged. -/
def fetchMissingTaxonomy (st : AppState) (resp : Option (List MissingItemView)) :
    AppState :=
  match resp with
  | none => st
  | some l => { st with missingTaxonomy := l }

/-- Embedded from App.js fetchScrapingResults: on success spread the
previous map and overwrite only the key of the fetched spider; on request
failure only log, leaving the state unchanged. -/
def fetchScrapingResults (spiderName : String) (st : AppState)
    (resp : Option ScrapeResults) : AppState :=
  match resp with
  | none => st
  | some r =>
    { st with scrapingResults := fun k =>
        if k = spiderName then some r else st.scrapingResults k }

/-- Outcome of the POST to start-scraping as seen by App.js: a success
payload with a job id, a failure payload with a message, or a thrown
HTTP-level error. -/
inductive StartResponse where
  | ok (job_id : String)
  | err (message : String)
  | httpFailure (message : String)
deriving DecidableEq

/-- The observable effects of the startScrapingJob handler of App.js. -/
inductive Effect where
  | alert (msg : String)
  | httpPost (url : String) (spider_name : String) (max_items : Nat)
  | refetchStatus
deriving DecidableEq

/-- True exactly on the POST effect. -/
def isHttpPost : Effect → Bool
  | Effect.httpPost _ _ _ => true
  | _ => false

/-- Embedded from App.js startScrapingJob: with no spider selected it only
alerts and returns; otherwise it sets loading, POSTs the spider name and
the item cap, alerts on each outcome, refetches the status on success, and
finally clears loading. -/
def startScrapingJob (st : AppState) (resp : StartResponse) : AppState × List Effect :=
  if st.selectedSpider = "" then
    (st, [Effect.alert "Please select a spider"])
  else
    let post := Effect.httpPost "/api/start-scraping" st.selectedSpider st.maxItems
    match resp with
    | StartResponse.ok jid =>
      ({ st with loading := false },
       [post, Effect.alert ("Scraping job started: " ++ jid), Effect.refetchStatus])
    | StartResponse.err msg =>
      ({ st with loading := false },
       [post, Effect.alert ("Failed to start scraping: " ++ msg)])
    | StartResponse.httpFailure msg =>
      ({ st with loading := false },
       [post, Effect.alert ("Error starting scraping job: " ++ msg)])

/-- Embedded from App.js: the disabled condition of the Start Scraping
button. -/
def startButtonDisabled (st : AppState) : Bool :=
  st.loading || st.pipelineStatus.is_running

/-- The four counters of the Current Job Status card of App.js. -/
structure JobStatusView where
  processed : Nat
  successful : Nat
  failed : Nat
  skipped : Nat
deriving DecidableEq

/-- The job-status portion of the rendered dashboard: the header badge from
the running flag, and the counter card shown only when a current job is
reported. -/
structure DashboardView where
  runningBadge : Bool
  jobStatus : Option JobStatusView
deriving DecidableEq

/-- Embedded from App.js lines 164 to 169 and 211 to 242: the running badge
shows the running flag, the counter card renders when a current job exists,
and each counter falls back to 0 when the stats object is absent. -/
def renderDashboard (ps : PipelineStatus) : DashboardView :=
  { runningBadge := ps.is_running
    jobStatus :=
      match ps.current_job with
      | none => none
      | some _ =>
        some { processed := (ps.stats.map JobStats.total_processed).getD 0
               successful := (ps.stats.map JobStats.successful_submissions).getD 0
               failed := (ps.stats.map JobStats.failed_submissions).getD 0
               skipped := (ps.stats.map JobStats.duplicates_skipped).getD 0 } }

/-- The polling period of the mount effect of App.js, in milliseconds. -/
def pollIntervalMs : Nat := 3000

/-- The endpoint fetchPipelineStatus polls. -/
def statusEndpoint : String := "/api/status"

/-- The one-shot fetches the mount effect of App.js issues before starting
the interval. -/
def mountFetches : List String :=
  ["/api/spiders", "/api/status", "/api/test-services"]

/-- State of the interval timer installed by the mount effect: whether the
component is still mounted (the cleanup clears the interval) and the
milliseconds elapsed since the last firing. -/
structure TimerState where
  mounted : Bool
  sinceLastMs : Nat
deriving DecidableEq

/-- Advance the timer by one millisecond, returning the endpoints fetched
during that millisecond: the interval fires fetchPipelineStatus every
pollIntervalMs while mounted and nothing after the cleanup ran. -/
def tickMs (s : TimerState) : TimerState × List String :=
  if s.mounted then
    if s.sinceLastMs + 1 = pollIntervalMs then
      ({ s with sinceLastMs := 0 }, [statusEndpoint])
    else
      ({ s with sinceLastMs := s.sinceLastMs + 1 }, [])
  else (s, [])

/-- Run the timer for a number of milliseconds, collecting every fetch it
issues in order. -/
def runTicks : TimerState → Nat → TimerState × List String
  | s, 0 => (s, [])
  | s, n + 1 =>
    let r1 := tickMs s
    let r2 := runTicks r1.1 n
    (r2.1, r1.2 ++ r2.2)

/-- Embedded from App.js line 30: the cleanup of the mount effect clears
the interval, leaving the timer unmounted. -/
def unmountCleanup (s : TimerState) : TimerState :=
  { s with mounted := false }

/-! ### Part 3: concrete sample data used by the witnesses -/

/-- A sample parsed URL: https scheme with mixed-case host, explicit
default port, root path. -/
def sampleUrl : Url :=
  { scheme := [104, 116, 116, 112, 115]
    host := [69, 120, 97, 109, 112, 108, 101, 46, 99, 111, 109]
    port := some 443
    path := [47]
    query := [] }

/-- A sample raw record with a name, a URL and one raw category. -/
def sampleRaw : RawRecord :=
  { name := some [84, 111, 111, 108, 32, 65]
    website_url := some sampleUrl
    description := none
    categories := [[97, 105]]
    source_site := [115, 105, 116, 101, 49] }

/-- A one-term sample taxonomy. -/
def sampleTaxonomy : List TaxonomyTerm :=
  [{ id := "cat_ai", display_name := [97, 105], aliases := [[65, 73]] }]

/-- The pipeline state at job start: empty store and log, seeded taxonomy,
zeroed statistics. -/
def initState : PipelineState :=
  { store := [], missing := [], taxonomy := sampleTaxonomy, stats := zeroStats }

/-- A status snapshot reporting a current job but carrying no stats. -/
def sampleRunningStatus : PipelineStatus :=
  { is_running := true, current_job := some "job-1", stats := none }

/-- The component state right after mount, before any fetch succeeded. -/
def sampleAppState : AppState :=
  { spiders := []
    pipelineStatus := emptyStatus
    serviceStatus := []
    scrapingResults := fun _ => none
    logs := []
    missingTaxonomy := []
    loading := false
    selectedSpider := ""
    maxItems := 50
    activeTab := "dashboard" }

/-- A component state with a spider selected and a running job reported. -/
def sampleReadyState : AppState :=
  { sampleAppState with
    spiders := ["futuretools"]
    selectedSpider := "futuretools"
    pipelineStatus := sampleRunningStatus }

/-- A registry entry in the Running state. -/
def sampleRunningJob : Job :=
  { id := "j1", spider_name := "futuretools", max_items := 5
    state := JobState.Running, stats := zeroStats }

/-! ### Part 4: the claims -/

/-- C9: every dashboard fetch operation leaves its displayed state
unchanged when the HTTP request fails; the error branch only logs and
performs no state update, so the last fetched value keeps being shown. -/
theorem c9_fetch_failure_preserves_state :
    (∀ st : AppState, fetchSpiders st none = st)
  ∧ (∀ st : AppState, fetchPipelineStatus st none = st)
  ∧ (∀ st : AppState, fetchServiceStatus st none = st)
  ∧ (∀ st : AppState, fetchLogs st none = st)
  ∧ (∀ st : AppState, fetchMissingTaxonomy st none = st)
  ∧ (∀ (st : AppState) (s : String), fetchScrapingResults s st none = st) :=
  ⟨fun _ => rfl, fun _ => rfl, fun _ => rfl, fun _ => rfl, fun _ => rfl,
   fun _ _ => rfl⟩

/-- C8: fetching scraping results for a spider updates only the entry of
that spider in the stored results map; every other key is unchanged. -/
theorem c8_fetch_results_frame (st : AppState) (s : String)
    (resp : Option ScrapeResults) (k : String) (h : k ≠ s) :
    (fetchScrapingResults s st resp).scrapingResults k = st.scrapingResults k := by
  cases resp with
  | none => rfl
  | some r => simp [fetchScrapingResults, h]

/-- Witness for C8 at a concrete state and distinct keys. -/
theorem c8_fetch_results_frame_witness :
    ("b" : String) ≠ "a"
  ∧ (fetchScrapingResults "a" sampleAppState none).scrapingResults "b"
      = sampleAppState.scrapingResults "b" :=
  ⟨by decide, c8_fetch_results_frame sampleAppState "a" none "b" (by decide)⟩

/-- C10: with no spider selected the submission handler only alerts and
returns, issuing no HTTP request and leaving every piece of component
state, the loading flag included, unchanged. -/
theorem c10_no_spider_selected (st : AppState) (resp : StartResponse)
    (h : st.selectedSpider = "") :
    startScrapingJob st resp = (st, [Effect.alert "Please select a spider"]) := by
  simp [startScrapingJob, h]

/-- Witness for C10 at the freshly mounted state. -/
theorem c10_no_spider_selected_witness :
    sampleAppState.selectedSpider = ""
  ∧ startScrapingJob sampleAppState (StartResponse.ok "j")
      = (sampleAppState, [Effect.alert "Please select a spider"]) :=
  ⟨rfl, c10_no_spider_selected sampleAppState (StartResponse.ok "j") rfl⟩

/-- C7: the job-status view renders the running flag and the four
aggregate counters only, and every counter renders 0 when the snapshot
carries no stats object. -/
theorem c7_job_status_view (ps : PipelineStatus) :
    (renderDashboard ps).runningBadge = ps.is_running
  ∧ (ps.stats = none → ∀ v, (renderDashboard ps).jobStatus = some v →
      v.processed = 0 ∧ v.successful = 0 ∧ v.failed = 0 ∧ v.skipped = 0) := by
  constructor
  · rfl
  · intro h v hv
    cases hc : ps.current_job with
    | none => simp [renderDashboard, hc] at hv
    | some j =>
      simp [renderDashboard, hc, h] at hv
      simp [← hv]

/-- Witness for C7 at a snapshot with a current job and absent stats. -/
theorem c7_job_status_view_witness :
    sampleRunningStatus.stats = none
  ∧ (JobStatusView.processed ⟨0, 0, 0, 0⟩ = 0
      ∧ JobStatusView.successful ⟨0, 0, 0, 0⟩ = 0
      ∧ JobStatusView.failed ⟨0, 0, 0, 0⟩ = 0
      ∧ JobStatusView.skipped ⟨0, 0, 0, 0⟩ = 0) :=
  ⟨rfl, (c7_job_status_view sampleRunningStatus).2 rfl ⟨0, 0, 0, 0⟩ rfl⟩

/-- C2: a submission POSTs exactly the spider name and the item cap to the
start-scraping endpoint; a failure payload surfaces its message through an
alert; the submit button is disabled whenever the snapshot reports a
running job; and the modelled endpoint answers a failure value, not an
HTTP error, while a Job is Running. -/
theorem c2_start_scraping_contract :
    (∀ (st : AppState) (resp : StartResponse), st.selectedSpider ≠ "" →
      (startScrapingJob st resp).2.filter isHttpPost
        = [Effect.httpPost "/api/start-scraping" st.selectedSpider st.maxItems])
  ∧ (∀ (st : AppState) (msg : String), st.selectedSpider ≠ "" →
      (startScrapingJob st (StartResponse.err msg)).2
        = [Effect.httpPost "/api/start-scraping" st.selectedSpider st.maxItems,
           Effect.alert ("Failed to start scraping: " ++ msg)])
  ∧ (∀ st : AppState, st.pipelineStatus.is_running = true →
      startButtonDisabled st = true)
  ∧ (∀ (jobs : List Job) (spider newId : String) (mi : Nat),
      (jobs.any fun j => decide (j.state = JobState.Running)) = true →
      apiStartScraping jobs spider mi newId
        = (jobs, ApiStartResult.failure "A scraping job is already running")) := by
  refine ⟨?_, ?_, ?_, ?_⟩
  · intro st resp h
    cases resp <;> simp [startScrapingJob, h, isHttpPost]
  · intro st msg h
    simp [startScrapingJob, h]
  · intro st h
    simp [startButtonDisabled, h]
  · intro jobs spider newId mi h
    simp [apiStartScraping, h]

/-- Witness for C2 at a state with a selected spider and a running job. -/
theorem c2_start_scraping_contract_witness :
    (sampleReadyState.selectedSpider ≠ ""
      ∧ (startScrapingJob sampleReadyState (StartResponse.ok "j")).2.filter isHttpPost
          = [Effect.httpPost "/api/start-scraping" sampleReadyState.selectedSpider
              sampleReadyState.maxItems])
  ∧ ((startScrapingJob sampleReadyState (StartResponse.err "busy")).2
        = [Effect.httpPost "/api/start-scraping" sampleReadyState.selectedSpider
            sampleReadyState.maxItems,
           Effect.alert ("Failed to start scraping: " ++ "busy")])
  ∧ startButtonDisabled sampleReadyState = true
  ∧ apiStartScraping [sampleRunningJob] "futuretools" 5 "j2"
      = ([sampleRunningJob], ApiStartResult.failure "A scraping job is already running") :=
  ⟨⟨by decide, c2_start_scraping_contract.1 sampleReadyState (StartResponse.ok "j")
      (by decide)⟩,
   c2_start_scraping_contract.2.1 sampleReadyState "busy" (by decide),
   c2_start_scraping_contract.2.2.1 sampleReadyState rfl,
   c2_start_scraping_contract.2.2.2 [sampleRunningJob] "futuretools" "j2" 5 (by decide)⟩

/-- While mounted, running the timer from a counter below the period
leaves the counter at the modular elapsed time and emits one status fetch
per full period. -/
theorem runTicks_mounted : ∀ (n c : Nat), c < pollIntervalMs →
    runTicks ⟨true, c⟩ n
      = (⟨true, (c + n) % pollIntervalMs⟩,
         List.replicate ((c + n) / pollIntervalMs) statusEndpoint)
  | 0, c, hc => by
    simp [runTicks, Nat.mod_eq_of_lt hc, Nat.div_eq_of_lt hc]
  | n + 1, c, hc => by
    by_cases h : c + 1 = pollIntervalMs
    · have h1 := runTicks_mounted n 0 (by simp [pollIntervalMs])
      have e2 : (c + (n + 1)) / pollIntervalMs = (0 + n) / pollIntervalMs + 1 := by
        simp only [pollIntervalMs] at *
        omega
      have e1 : (c + (n + 1)) % pollIntervalMs = (0 + n) % pollIntervalMs := by
        simp only [pollIntervalMs] at *
        omega
      simp only [runTicks, tickMs, if_pos h, if_true, h1, e1, e2,
        List.replicate_succ, List.singleton_append]
    · have hc1 : c + 1 < pollIntervalMs := by omega
      have h1 := runTicks_mounted n (c + 1) hc1
      have e3 : c + 1 + n = c + (n + 1) := by omega
      simp only [runTicks, tickMs, if_neg h, if_true, h1, e3, List.nil_append]

/-- After the cleanup cleared the interval, the timer never fetches. -/
theorem runTicks_unmounted : ∀ (n c : Nat),
    runTicks ⟨false, c⟩ n = (⟨false, c⟩, [])
  | 0, _ => rfl
  | n + 1, c => by
    simp only [runTicks, tickMs]
    rw [if_neg (by simp)]
    simp [runTicks_unmounted n c]

/-- C3: while mounted the dashboard polls exactly one endpoint, the status
endpoint, once every 3000 milliseconds (one fetch per elapsed full period,
in order), and once the unmount cleanup clears the interval no further
fetch is ever issued; status updates are pulled, never pushed. -/
theorem c3_status_polling :
    (∀ n : Nat, (runTicks ⟨true, 0⟩ n).2
        = List.replicate (n / pollIntervalMs) statusEndpoint)
  ∧ (∀ (c n : Nat), (runTicks (unmountCleanup ⟨true, c⟩) n).2 = [])
  ∧ pollIntervalMs = 3000
  ∧ statusEndpoint = "/api/status" := by
  refine ⟨?_, ?_, rfl, rfl⟩
  · intro n
    rw [runTicks_mounted n 0 (by simp [pollIntervalMs])]
    simp
  · intro c n
    simp only [unmountCleanup]
    rw [runTicks_unmounted n c]

/-- The per-record step updates the statistics by exactly one of the three
outcome bumps, each of which also counts the record processed. -/
theorem processRecord_stats_cases (st : PipelineState) (raw : RawRecord) :
    (processRecord st raw).stats = bumpFailed st.stats
  ∨ (processRecord st raw).stats = bumpDup st.stats
  ∨ (processRecord st raw).stats = bumpSuccess st.stats := by
  cases hn : normalize raw with
  | none => left; simp [processRecord, hn]
  | some r =>
    cases hf : find_by_url st.store r.website_url with
    | some e => right; left; simp [processRecord, hn, hf]
    | none => right; right; simp [processRecord, hn, hf]

/-- The per-record step increments total_processed by exactly one. -/
theorem processRecord_total (st : PipelineState) (raw : RawRecord) :
    (processRecord st raw).stats.total_processed
      = st.stats.total_processed + 1 := by
  rcases processRecord_stats_cases st raw with h | h | h <;>
    simp [h, bumpFailed, bumpDup, bumpSuccess]

/-- The per-record step preserves the stats accounting invariant. -/
theorem statsInvariant_processRecord (st : PipelineState) (raw : RawRecord)
    (h : statsInvariant st.stats) : statsInvariant (processRecord st raw).stats := by
  unfold statsInvariant at *
  rcases processRecord_stats_cases st raw with hc | hc | hc <;>
    simp [hc, bumpFailed, bumpDup, bumpSuccess] <;> omega

/-- The run loop preserves the stats accounting invariant. -/
theorem statsInvariant_runJob (m : Nat) :
    ∀ (recs : List RawRecord) (st : PipelineState),
      statsInvariant st.stats → statsInvariant (runJob m st recs).1.stats
  | [], _, h => h
  | r :: rs, st, h => by
    unfold runJob
    by_cases hm : m ≤ st.stats.total_processed
    · simpa [hm] using h
    · simpa [hm] using
        statsInvariant_runJob m rs (processRecord st r)
          (statsInvariant_processRecord st r h)

/-- C1: total_processed always equals the sum of the three outcome
counters; the invariant holds after every single record step and at the
end of every run, because exactly one outcome counter and the total are
bumped per record. -/
theorem c1_stats_accounting :
    (∀ (st : PipelineState) (raw : RawRecord),
      statsInvariant st.stats → statsInvariant (processRecord st raw).stats)
  ∧ (∀ (m : Nat) (st : PipelineState) (recs : List RawRecord),
      statsInvariant st.stats → statsInvariant (runJob m st recs).1.stats) :=
  ⟨statsInvariant_processRecord,
   fun m st recs h => statsInvariant_runJob m recs st h⟩

/-- Witness for C1 from the zeroed job start state. -/
theorem c1_stats_accounting_witness :
    statsInvariant initState.stats
  ∧ statsInvariant (processRecord initState sampleRaw).stats
  ∧ statsInvariant (runJob 2 initState [sampleRaw, sampleRaw]).1.stats :=
  ⟨by decide,
   c1_stats_accounting.1 initState sampleRaw (by decide),
   c1_stats_accounting.2 2 initState [sampleRaw, sampleRaw] (by decide)⟩

/-- The run loop pulls records until the cap or the end of the stream:
the number pulled is the minimum of the remaining allowance and the stream
length, total_processed grows by that amount, and the job completes. -/
theorem runJob_cap_spec (m : Nat) :
    ∀ (recs : List RawRecord) (st : PipelineState),
      st.stats.total_processed ≤ m →
      (runJob m st recs).1.stats.total_processed
          = st.stats.total_processed
            + min (m - st.stats.total_processed) recs.length
    ∧ (runJob m st recs).2.1.length
          = min (m - st.stats.total_processed) recs.length
    ∧ (runJob m st recs).2.2 = JobState.Completed
  | [], st, _ => by simp [runJob]
  | r :: rs, st, hle => by
    unfold runJob
    by_cases hm : m ≤ st.stats.total_processed
    · have hz : m - st.stats.total_processed = 0 := by omega
      simp [hm, hz]
    · have h1 : (processRecord st r).stats.total_processed ≤ m := by
        rw [processRecord_total]
        omega
      have ih := runJob_cap_spec m rs (processRecord st r) h1
      rw [processRecord_total] at ih
      simp only [if_neg hm]
      refine ⟨?_, ?_, ih.2.2⟩
      · rw [ih.1]
        simp only [List.length_cons]
        omega
      · simp only [List.length_cons]
        rw [ih.2.1]
        omega

/-- C5: starting from zeroed statistics, the run loop processes exactly
the minimum of the cap and the stream length: once the cap is reached no
further record is pulled and the job ends Completed. -/
theorem c5_max_items_enforced (m : Nat) (recs : List RawRecord)
    (st : PipelineState) (h : st.stats.total_processed = 0) :
    (runJob m st recs).1.stats.total_processed = min m recs.length
  ∧ (runJob m st recs).2.1.length = min m recs.length
  ∧ (runJob m st recs).2.2 = JobState.Completed := by
  have hs := runJob_cap_spec m recs st (by omega)
  rw [h] at hs
  refine ⟨?_, ?_, hs.2.2⟩
  · rw [hs.1]; omega
  · rw [hs.2.1]; omega

/-- Witness for C5: a cap of 2 against a stream of 5 records pulls and
processes exactly 2 and completes. -/
theorem c5_max_items_enforced_witness :
    initState.stats.total_processed = 0
  ∧ ((runJob 2 initState
        [sampleRaw, sampleRaw, sampleRaw, sampleRaw, sampleRaw]).1.stats.total_processed
        = min 2 [sampleRaw, sampleRaw, sampleRaw, sampleRaw, sampleRaw].length
    ∧ (runJob 2 initState
        [sampleRaw, sampleRaw, sampleRaw, sampleRaw, sampleRaw]).2.1.length
        = min 2 [sampleRaw, sampleRaw, sampleRaw, sampleRaw, sampleRaw].length
    ∧ (runJob 2 initState
        [sampleRaw, sampleRaw, sampleRaw, sampleRaw, sampleRaw]).2.2
        = JobState.Completed) :=
  ⟨rfl, c5_max_items_enforced 2
    [sampleRaw, sampleRaw, sampleRaw, sampleRaw, sampleRaw] initState rfl⟩

/-- Merging preserves the unique key of the entity. -/
theorem mergeEntity_url (e : Entity) (r : NormalizedRecord) (ids : List String) :
    (mergeEntity e r ids).website_url = e.website_url := rfl

/-- The inserted entity carries the canonical URL of the record. -/
theorem newEntity_url (r : NormalizedRecord) (ids : List String) :
    (newEntity r ids).website_url = r.website_url := rfl

/-- The lookup finds an entity whenever one with the URL is stored. -/
theorem find_by_url_isSome {store : List Entity} {u : Url}
    (h : ∃ e ∈ store, e.website_url = u) : (find_by_url store u).isSome := by
  unfold find_by_url
  rw [List.find?_isSome]
  obtain ⟨e, he, hu⟩ := h
  exact ⟨e, he, by simp [hu]⟩

/-- In the duplicate branch the store is rewritten in place by the merge
map. -/
theorem processRecord_store_dup (st : PipelineState) (raw : RawRecord)
    (r : NormalizedRecord) (e0 : Entity) (hn : normalize raw = some r)
    (hf : find_by_url st.store r.website_url = some e0) :
    (processRecord st raw).store
      = st.store.map (fun x =>
          if x.website_url = r.website_url
          then mergeEntity x r (resolveAll st.taxonomy st.missing r.categories).1
          else x) := by
  simp [processRecord, hn, hf]

/-- In the fresh branch the new entity is appended to the store. -/
theorem processRecord_store_insert (st : PipelineState) (raw : RawRecord)
    (r : NormalizedRecord) (hn : normalize raw = some r)
    (hf : find_by_url st.store r.website_url = none) :
    (processRecord st raw).store
      = st.store ++ [newEntity r (resolveAll st.taxonomy st.missing r.categories).1] := by
  simp [processRecord, hn, hf]

/-- The duplicate branch keeps the store size and counts one skipped
duplicate. -/
theorem processRecord_dup_effect (st : PipelineState) (raw : RawRecord)
    (r : NormalizedRecord) (e0 : Entity) (hn : normalize raw = some r)
    (hf : find_by_url st.store r.website_url = some e0) :
    (processRecord st raw).store.length = st.store.length
  ∧ (processRecord st raw).stats.duplicates_skipped
      = st.stats.duplicates_skipped + 1 := by
  constructor
  · rw [processRecord_store_dup st raw r e0 hn hf, List.length_map]
  · simp [processRecord, hn, hf, bumpDup]

/-- After processing a record that normalizes, some stored entity carries
the canonical URL of the record. -/
theorem processRecord_store_has_url (st : PipelineState) (raw : RawRecord)
    (r : NormalizedRecord) (hn : normalize raw = some r) :
    ∃ e ∈ (processRecord st raw).store, e.website_url = r.website_url := by
  cases hf : find_by_url st.store r.website_url with
  | some e0 =>
    have hf0 : st.store.find? (fun e => decide (e.website_url = r.website_url))
        = some e0 := hf
    have he0 : e0 ∈ st.store := List.mem_of_find?_eq_some hf0
    have hu0 : e0.website_url = r.website_url := by
      have hp := List.find?_some hf0
      exact of_decide_eq_true hp
    rw [processRecord_store_dup st raw r e0 hn hf]
    refine ⟨(fun x =>
        if x.website_url = r.website_url
        then mergeEntity x r (resolveAll st.taxonomy st.missing r.categories).1
        else x) e0,
      List.mem_map_of_mem _ he0, ?_⟩
    simp only [if_pos hu0, mergeEntity_url]
    exact hu0
  | none =>
    rw [processRecord_store_insert st raw r hn hf]
    exact ⟨newEntity r (resolveAll st.taxonomy st.missing r.categories).1,
      by simp, rfl⟩

/-- C4: ingestion is idempotent per record: running a record that
normalizes through the Coordinator a second time leaves the store size
unchanged (the second run is a merge, not an insert) and increments
duplicates_skipped by exactly one. -/
theorem c4_ingestion_idempotent (st : PipelineState) (raw : RawRecord)
    (h : (normalize raw).isSome = true) :
    (processRecord (processRecord st raw) raw).store.length
        = (processRecord st raw).store.length
  ∧ (processRecord (processRecord st raw) raw).stats.duplicates_skipped
        = (processRecord st raw).stats.duplicates_skipped + 1 := by
  obtain ⟨r, hn⟩ := Option.isSome_iff_exists.mp h
  have hhas := processRecord_store_has_url st raw r hn
  have hsome := find_by_url_isSome hhas
  obtain ⟨e2, hf2⟩ := Option.isSome_iff_exists.mp hsome
  exact processRecord_dup_effect (processRecord st raw) raw r e2 hn hf2

/-- Witness for C4: the sample record against the empty store. -/
theorem c4_ingestion_idempotent_witness :
    (normalize sampleRaw).isSome = true
  ∧ ((processRecord (processRecord initState sampleRaw) sampleRaw).store.length
        = (processRecord initState sampleRaw).store.length
    ∧ (processRecord (processRecord initState sampleRaw) sampleRaw).stats.duplicates_skipped
        = (processRecord initState sampleRaw).stats.duplicates_skipped + 1) :=
  ⟨by decide, c4_ingestion_idempotent initState sampleRaw (by decide)⟩

/-- ASCII lower-casing is idempotent on character codes. -/
theorem toLowerChar_idem (c : Nat) : toLowerChar (toLowerChar c) = toLowerChar c := by
  by_cases h : 65 ≤ c ∧ c ≤ 90
  · have h1 : toLowerChar c = c + 32 := by simp [toLowerChar, h]
    have h2 : toLowerChar (c + 32) = c + 32 := by
      unfold toLowerChar
      rw [if_neg (by omega)]
    rw [h1, h2]
  · have h1 : toLowerChar c = c := by simp [toLowerChar, h]
    rw [h1, h1]

/-- Lower-casing a string twice equals lower-casing it once. -/
theorem lowerStr_idem (s : List Nat) : lowerStr (lowerStr s) = lowerStr s := by
  induction s with
  | nil => rfl
  | cons a t ih =>
    simp only [lowerStr, List.map_cons] at ih ⊢
    rw [toLowerChar_idem, ih]

/-- Dropping a prefix that satisfies a predicate is idempotent. -/
theorem dropWhile_idem (p : Nat → Bool) (l : List Nat) :
    (l.dropWhile p).dropWhile p = l.dropWhile p := by
  induction l with
  | nil => rfl
  | cons a t ih =>
    by_cases h : p a = true
    · simp [List.dropWhile_cons, h, ih]
    · simp [List.dropWhile_cons, h]

/-- Stripping the trailing slashes twice equals stripping them once. -/
theorem stripSlashes_idem (p : List Nat) :
    stripSlashes (stripSlashes p) = stripSlashes p := by
  simp only [stripSlashes, List.reverse_reverse, dropWhile_idem]

/-- Filtering a list twice by one predicate equals filtering it once. -/
theorem filter_idem {α : Type} (p : α → Bool) (l : List α) :
    (l.filter p).filter p = l.filter p := by
  induction l with
  | nil => rfl
  | cons a t ih =>
    by_cases h : p a = true
    · simp [List.filter_cons, h, ih]
    · simp [List.filter_cons, h, ih]

/-- C6: URL canonicalization is a fixed point: canonicalizing a
canonical URL changes nothing, for every URL. -/
theorem c6_canonicalize_idempotent (u : Url) :
    canonicalize (canonicalize u) = canonicalize u := by
  simp only [canonicalize, lowerStr_idem, stripSlashes_idem, filter_idem,
    Url.mk.injEq]
  refine ⟨trivial, trivial, ?_, trivial, trivial⟩
  cases u.port with
  | none => rfl
  | some p =>
    by_cases hd : defaultPort (lowerStr u.scheme) = some p
    · simp [hd]
    · simp [hd]

end Scrapers
